import Mathlib

/-!
Verification of the directory subsystem of `fluxfox_fat` (`src/dir.rs`).

All machine integers are modelled as `Nat` with explicit `% 2 ^ w`
arithmetic where wrapping matters.  Byte strings are `List Nat` with every
element below 256.  Rust's `Option`/`Result` become `Option` and the
`FatResult` type below.  Definitions are translated from the source; the
few definitions that instead follow the specification's words are marked
`Modelled from the spec` in their doc comment.
-/

set_option maxHeartbeats 1600000
set_option maxRecDepth 8192

/-- A 16-bit value written little-endian, as by `write_u16::<LittleEndian>`. -/
def le16 (v : Nat) : List Nat := [v % 256, v / 256 % 256]

/-- A 32-bit value written little-endian, as by `write_u32::<LittleEndian>`. -/
def le32 (v : Nat) : List Nat :=
  [v % 256, v / 256 % 256, v / 65536 % 256, v / 16777216 % 256]

/-- `DirFileEntryData` from `dir.rs`: the short (file/subdirectory) 32-byte
slot.  `name` has 11 bytes; all other multi-byte fields are plain `Nat`
values of the corresponding little-endian fields.  Defaults are zero, as in
Rust's `Default::default()`. -/
structure DirFileEntryData where
  name : List Nat := List.replicate 11 0
  attrs : Nat := 0
  reserved_0 : Nat := 0
  create_time_0 : Nat := 0
  create_time_1 : Nat := 0
  create_date : Nat := 0
  access_date : Nat := 0
  first_cluster_hi : Nat := 0
  modify_time : Nat := 0
  modify_date : Nat := 0
  first_cluster_lo : Nat := 0
  size : Nat := 0
deriving DecidableEq, Repr

/-- `DirLfnEntryData` from `dir.rs`: one LFN fragment.  `name_0`, `name_1`,
`name_2` hold 5, 6, 2 UCS-2 code units. -/
structure DirLfnEntryData where
  order : Nat := 0
  name_0 : List Nat := List.replicate 5 0
  attrs : Nat := 0
  entry_type : Nat := 0
  checksum : Nat := 0
  name_1 : List Nat := List.replicate 6 0
  reserved_0 : Nat := 0
  name_2 : List Nat := List.replicate 2 0
deriving DecidableEq, Repr

/-- `DirEntryData` from `dir.rs`: either shape of a decoded 32-byte slot. -/
inductive DirEntryData where
  | file (d : DirFileEntryData)
  | lfn (d : DirLfnEntryData)
deriving DecidableEq, Repr

/-- `DirFileEntryData::serialize`: the 32 bytes written for a short slot. -/
def serializeFile (d : DirFileEntryData) : List Nat :=
  d.name ++ [d.attrs, d.reserved_0, d.create_time_0] ++
  le16 d.create_time_1 ++ le16 d.create_date ++ le16 d.access_date ++
  le16 d.first_cluster_hi ++ le16 d.modify_time ++ le16 d.modify_date ++
  le16 d.first_cluster_lo ++ le32 d.size

/-- `DirLfnEntryData::serialize`: the 32 bytes written for an LFN slot. -/
def serializeLfn (d : DirLfnEntryData) : List Nat :=
  d.order :: ((d.name_0.map le16).flatten ++ [d.attrs, d.entry_type, d.checksum] ++
    (d.name_1.map le16).flatten ++ le16 d.reserved_0 ++ (d.name_2.map le16).flatten)

/-- `DirEntryData::serialize`. -/
def serializeData : DirEntryData → List Nat
  | .file d => serializeFile d
  | .lfn d => serializeLfn d

/-- `DirEntryData::deserialize` on a 32-byte slot (`none` models the
`read_exact` error on a short read).  `FileAttributes::from_bits_truncate`
masks the attribute byte to the union of the defined flags, which is
`0x3F`; masking with `0x3F = 2^6 - 1` is `% 64`.  The LFN test
`attrs & LFN == LFN` with `LFN = 0x0F = 2^4 - 1` is `% 16 == 15`. -/
def deserialize : List Nat → Option DirEntryData
  | b0 :: b1 :: b2 :: b3 :: b4 :: b5 :: b6 :: b7 :: b8 :: b9 :: b10 :: b11 ::
    b12 :: b13 :: b14 :: b15 :: b16 :: b17 :: b18 :: b19 :: b20 :: b21 ::
    b22 :: b23 :: b24 :: b25 :: b26 :: b27 :: b28 :: b29 :: b30 :: b31 :: _ =>
    if b11 % 64 % 16 = 15 then
      some (.lfn
        { order := b0
          name_0 := [b1 + 256 * b2, b3 + 256 * b4, b5 + 256 * b6,
                     b7 + 256 * b8, b9 + 256 * b10]
          attrs := b11 % 64
          entry_type := b12
          checksum := b13
          name_1 := [b14 + 256 * b15, b16 + 256 * b17, b18 + 256 * b19,
                     b20 + 256 * b21, b22 + 256 * b23, b24 + 256 * b25]
          reserved_0 := b26 + 256 * b27
          name_2 := [b28 + 256 * b29, b30 + 256 * b31] })
    else
      some (.file
        { name := [b0, b1, b2, b3, b4, b5, b6, b7, b8, b9, b10]
          attrs := b11 % 64
          reserved_0 := b12
          create_time_0 := b13
          create_time_1 := b14 + 256 * b15
          create_date := b16 + 256 * b17
          access_date := b18 + 256 * b19
          first_cluster_hi := b20 + 256 * b21
          modify_time := b22 + 256 * b23
          modify_date := b24 + 256 * b25
          first_cluster_lo := b26 + 256 * b27
          size := b28 + 256 * b29 + 65536 * b30 + 16777216 * b31 })
  | _ => none

/-- The slot used as the round-trip counterexample: all bytes zero except
the attribute byte at offset 11, which has the undefined bit `0x40` set. -/
def slotWithUnknownAttrBit : List Nat :=
  [1, 0, 0, 0, 0, 0, 0, 0, 0, 0, 0, 64,
   0, 0, 0, 0, 0, 0, 0, 0, 0, 0, 0, 0, 0, 0, 0, 0, 0, 0, 0, 0]

/-- ASCII uppercasing of one byte.  `str::to_uppercase` restricted to ASCII
input, where it maps each byte `a`-`z` to `A`-`Z`; `Dir::gen_short_name` is
modelled for ASCII names (the only ones on which byte indexing into the
uppercased Rust string is position-stable). -/
def byteToUpper (b : Nat) : Nat := if 97 ≤ b ∧ b ≤ 122 then b - 32 else b

/-- `str::rfind('.')`: index of the last occurrence of `.` (byte 46). -/
def rfindDot : List Nat → Option Nat
  | [] => none
  | b :: rest =>
    match rfindDot rest with
    | some j => some (j + 1)
    | none => if b = 46 then some 0 else none

/-- `Dir::gen_short_name` on an ASCII name given as its byte list.  The
extension copy is `name_upper[index..index+short_ext_len]` — it starts at
the dot itself, exactly as the source does. -/
def gen_short_name (name : List Nat) : List Nat :=
  let name_upper := name.map byteToUpper
  let parts :=
    match rfindDot name_upper with
    | some index =>
      let short_ext_len := min (name_upper.length - index - 1) 3
      ((name_upper.take index), ((name_upper.drop index).take short_ext_len))
    | none => (name_upper, [])
  let base_len := min parts.1.length 8
  (parts.1.take base_len ++ List.replicate (8 - base_len) 32) ++
    (parts.2 ++ List.replicate (3 - parts.2.length) 32)

/-- Modelled from the spec: the short-name synthesizer as §4.4 and the claim
describe it — the up-to-3 extension characters are taken from immediately
AFTER the last dot (the dot itself excluded).  It differs from
`gen_short_name` only in the start of the extension slice. -/
def gen_short_name_spec (name : List Nat) : List Nat :=
  let name_upper := name.map byteToUpper
  let parts :=
    match rfindDot name_upper with
    | some index =>
      let short_ext_len := min (name_upper.length - index - 1) 3
      ((name_upper.take index),
        ((name_upper.drop (index + 1)).take short_ext_len))
    | none => (name_upper, [])
  let base_len := min parts.1.length 8
  (parts.1.take base_len ++ List.replicate (8 - base_len) 32) ++
    (parts.2 ++ List.replicate (3 - parts.2.length) 32)

/-- `DirFileEntryData::is_free`: first name byte is `0xE5`. -/
def DirFileEntryData.is_free (d : DirFileEntryData) : Bool :=
  d.name.headD 0 == 229

/-- `DirFileEntryData::is_end`: first name byte is zero. -/
def DirFileEntryData.is_end (d : DirFileEntryData) : Bool :=
  d.name.headD 0 == 0

/-- `DirLfnEntryData::is_free`: the order byte is `0xE5`. -/
def DirLfnEntryData.is_free (d : DirLfnEntryData) : Bool := d.order == 229

/-- `DirLfnEntryData::is_end`: the order byte is zero. -/
def DirLfnEntryData.is_end (d : DirLfnEntryData) : Bool := d.order == 0

/-- `DirEntryData::is_free`. -/
def DirEntryData.is_free : DirEntryData → Bool
  | .file d => d.is_free
  | .lfn d => d.is_free

/-- `DirEntryData::is_end`. -/
def DirEntryData.is_end : DirEntryData → Bool
  | .file d => d.is_end
  | .lfn d => d.is_end

/-- The loop of `Dir::find_free_entries` over the already-decoded slots of
the directory stream: `first_free`, `num_free` and `i` are the loop state,
`k` is `num_entries`.  The result is the byte offset the stream is seeked
to (`none` models the I/O error when the stream ends before a run or a
terminator is found). -/
def findFreeGo (k : Nat) : List DirEntryData → Nat → Nat → Nat → Option Nat
  | [], _, _, _ => none
  | d :: rest, first_free, num_free, i =>
    if d.is_free then
      (if num_free + 1 = k then
        some ((if num_free = 0 then i else first_free) * 32)
      else
        findFreeGo k rest (if num_free = 0 then i else first_free)
          (num_free + 1) (i + 1))
    else if d.is_end then
      some ((if num_free = 0 then i else first_free) * 32)
    else
      findFreeGo k rest first_free 0 (i + 1)

/-- `Dir::find_free_entries`, started with zeroed state. -/
def find_free_entries (slots : List DirEntryData) (k : Nat) : Option Nat :=
  findFreeGo k slots 0 0 0

/-- `noReach k nf slots = true` says: starting with a free run of length
`nf` in progress, scanning `slots` never accumulates `k` consecutive free
slots (so `find_free_entries` cannot return through the free-run branch
within `slots`). -/
def noReach (k : Nat) : Nat → List DirEntryData → Bool
  | _, [] => true
  | nf, d :: rest =>
    if d.is_free then (nf + 1 != k) && noReach k (nf + 1) rest
    else noReach k 0 rest

/-- Length of the free run in progress after scanning `slots` starting with
a run of length `nf` already open: the `num_free` value the search loop
holds when it reaches the slot following `slots`. -/
def runAtEnd (nf : Nat) : List DirEntryData → Nat
  | [] => nf
  | d :: rest => if d.is_free then runAtEnd (nf + 1) rest else runAtEnd 0 rest

/-- A live (non-free, non-terminator) short slot for concrete tests. -/
def slotLive : DirEntryData :=
  .file { name := 65 :: List.replicate 10 32 }

/-- A free slot (first byte `0xE5`) for concrete tests. -/
def slotFree : DirEntryData :=
  .file { name := 229 :: List.replicate 10 32 }

/-- A terminator slot (first byte zero) for concrete tests. -/
def slotEnd : DirEntryData :=
  .file { name := List.replicate 11 0 }

/-- The per-slot mutation of `Dir::remove`: set the "free" byte, `0xE5` at
`name[0]` for short slots and at `order` for LFN slots. -/
def set_free : DirEntryData → DirEntryData
  | .file d => .file { d with name := d.name.set 0 229 }
  | .lfn d => .lfn { d with order := 229 }

/-- One iteration of `Dir::remove`'s rewrite loop on a raw 32-byte slot:
decode, set the free byte, re-encode.  (The `none` branch is unreachable
for 32-byte slots.) -/
def remove_mark (s : List Nat) : List Nat :=
  match deserialize s with
  | some d => serializeData (set_free d)
  | none => s

/-- The rewrite loop of `Dir::remove` over the directory's raw slots,
carrying the current slot index `j`: every slot with index in
`[first, first + num)` is re-read, marked free and rewritten in place;
other slots are not written. -/
def remove_slots_go : List (List Nat) → Nat → Nat → Nat → List (List Nat)
  | [], _, _, _ => []
  | s :: rest, j, first, num =>
    (if first ≤ j ∧ j < first + num then remove_mark s else s) ::
      remove_slots_go rest (j + 1) first num

/-- `Dir::remove`'s slot rewriting, started at index 0: the entry's byte
range `[a, b)` corresponds to slot indices `first = a / 32` and
`num = (b - a) / 32`. -/
def remove_slots (slots : List (List Nat)) (first num : Nat) : List (List Nat) :=
  remove_slots_go slots 0 first num

/-- `io::ErrorKind` values produced by the directory core, plus
`directoryNotEmpty`, which is modelled from the spec's error taxonomy (§7):
the source never produces it (`std::io::ErrorKind` has no such variant in
the source's era), reusing `NotFound` instead. -/
inductive ErrorKind where
  | notFound
  | invalidInput
  | directoryNotEmpty
  | unexpectedEof
deriving DecidableEq, Repr

/-- `io::Result` as used by the directory core, with the error reduced to
its kind. -/
inductive FatResult (α : Type) where
  | ok (val : α)
  | err (kind : ErrorKind)
deriving DecidableEq, Repr

/-- `Result::map` for `FatResult`. -/
def FatResult.map {α β : Type} (f : α → β) : FatResult α → FatResult β
  | .ok v => .ok (f v)
  | .err k => .err k

/-- `lfn_checksum` from `dir.rs` on the 11 short-name bytes: start at 0 and
fold `c = ((c & 1) << 7) + (c >> 1) + b` modulo 256 (`c % 2 * 128` is
`(c & 1) << 7`, `c / 2` is `c >> 1`).  The source indexes `0..11` and
would panic on a shorter name; all call sites pass 11 bytes. -/
def lfn_checksum (short_name : List Nat) : Nat :=
  (short_name.take 11).foldl
    (fun chksum b => (chksum % 2 * 128 + chksum / 2 + b) % 256) 0

/-- `LongNameBuilder` state: the UCS-2 buffer, the stored checksum, and the
next expected 1-based fragment index. -/
structure LongNameBuilder where
  buf : List Nat := []
  chksum : Nat := 0
  index : Nat := 0
deriving DecidableEq, Repr

/-- `LongNameBuilder::new`. -/
def LongNameBuilder.new : LongNameBuilder := {}

/-- `LongNameBuilder::clear`: clears the buffer and the index (the stored
checksum is left as is, exactly as in the source). -/
def LongNameBuilder.clear (b : LongNameBuilder) : LongNameBuilder :=
  { b with buf := [], index := 0 }

/-- `LongNameBuilder::truncate`: strip trailing `0x0000` and `0xFFFF` code
units. -/
def lfnTruncate (buf : List Nat) : List Nat :=
  (buf.reverse.dropWhile (fun c => c == 65535 || c == 0)).reverse

/-- `LongNameBuilder::to_vec`: the assembled name when the sequence closed
at index 1, otherwise empty. -/
def LongNameBuilder.to_vec (b : LongNameBuilder) : List Nat :=
  if b.index = 1 then lfnTruncate b.buf else []

/-- `Vec::resize(n, 0)`. -/
def listResize (l : List Nat) (n : Nat) : List Nat :=
  l.take n ++ List.replicate (n - l.length) 0

/-- `copy_from_slice` of `xs` into `l` at position `pos`. -/
def writeAt (l : List Nat) (pos : Nat) (xs : List Nat) : List Nat :=
  l.take pos ++ xs ++ l.drop (pos + xs.length)

/-- `LongNameBuilder::process`: `order & 0x1F` is `% 32`; the
`order & 0x40 != 0` LAST test is bit 6, `order / 64 % 2 = 1`. -/
def LongNameBuilder.process (b : LongNameBuilder) (data : DirLfnEntryData) :
    LongNameBuilder :=
  let index := data.order % 32
  let parts := data.name_0 ++ data.name_1 ++ data.name_2
  if index = 0 then b.clear
  else if data.order / 64 % 2 = 1 then
    { b with
        index := index
        chksum := data.checksum
        buf := writeAt (listResize b.buf (index * 13)) ((index - 1) * 13) parts }
  else if b.index = 0 ∨ index ≠ b.index - 1 ∨ data.checksum ≠ b.chksum then
    b.clear
  else
    { b with
        index := b.index - 1
        buf := writeAt b.buf ((index - 1) * 13) parts }

/-- `LongNameBuilder::validate_chksum`: on mismatch against the short
name's checksum, clear (the name falls back to the short name); never an
error. -/
def LongNameBuilder.validate_chksum (b : LongNameBuilder)
    (short_name : List Nat) : LongNameBuilder :=
  if lfn_checksum short_name ≠ b.chksum then b.clear else b

/-- One byte of Rust's ASCII whitespace as trimmed by `str::trim_right`
(restricted to single bytes: non-ASCII bytes decode lossily to U+FFFD,
which is not whitespace, so they are never trimmed). -/
def isAsciiWs (b : Nat) : Bool := b == 32 || decide (9 ≤ b ∧ b ≤ 13)

/-- `str::trim_right` on a byte list. -/
def trimRight (l : List Nat) : List Nat := (l.reverse.dropWhile isAsciiWs).reverse

/-- `DirEntry::short_file_name` on the 11 name bytes: trim the 8-byte base
and the 3-byte extension, join with a dot when the extension is
non-empty. -/
def short_file_name (name : List Nat) : List Nat :=
  let name_trimmed := trimRight (name.take 8)
  let ext_trimmed := trimRight ((name.drop 8).take 3)
  if ext_trimmed.isEmpty then name_trimmed
  else name_trimmed ++ 46 :: ext_trimmed

/-- `DirEntry` from `dir.rs` (the filesystem back-reference dropped):
decoded short data, assembled long name (UTF-16 code units), absolute
position of the short slot, and the byte range of the logical entry. -/
structure DirEntry where
  data : DirFileEntryData
  lfn : List Nat
  entry_pos : Nat
  offset_range : Nat × Nat
deriving DecidableEq, Repr

/-- `DirEntry::file_name`: the long name when present, else the short
name. -/
def DirEntry.file_name (e : DirEntry) : List Nat :=
  if e.lfn.length > 0 then e.lfn else short_file_name e.data.name

/-- `DirEntry::len`: the raw `size` field, unconditionally (`u32 as u64`
preserves the value). -/
def DirEntry.len (e : DirEntry) : Nat := e.data.size

/-- `DirFileEntryData::is_dir`: `attrs.contains(DIRECTORY)`, bit `0x10`. -/
def DirFileEntryData.is_dir (d : DirFileEntryData) : Bool :=
  d.attrs / 16 % 2 == 1

/-- `DirFileEntryData::is_file`. -/
def DirFileEntryData.is_file (d : DirFileEntryData) : Bool := !d.is_dir

/-- `DirFileEntryData::size` (the accessor method, named `size_opt` here to
avoid clashing with the field): the size for files, `None` for
directories. -/
def DirFileEntryData.size_opt (d : DirFileEntryData) : Option Nat :=
  if d.is_file then some d.size else none

/-- `DirFileEntryData::first_cluster`:
`(first_cluster_hi << 16) | first_cluster_lo`, zero meaning none. -/
def DirFileEntryData.first_cluster (d : DirFileEntryData) : Option Nat :=
  if d.first_cluster_hi * 65536 + d.first_cluster_lo = 0 then none
  else some (d.first_cluster_hi * 65536 + d.first_cluster_lo)

/-- `attrs.contains(VOLUME_ID)`: bit `0x08`. -/
def hasVolumeId (attrs : Nat) : Bool := attrs / 8 % 2 == 1

/-- The loop of `DirIter::read_dir_entry`, fused over the whole directory:
from the decoded slot stream, the LFN builder state, `begin_offset` and
the running offset, produce the list of logical entries up to the
terminator.  Reaching the end of the stream without a terminator is the
`read_exact` error (`unexpectedEof`); the iterator stops after an error,
so the result is `err` for the whole tail. -/
def collectEntries : List DirEntryData → LongNameBuilder → Nat → Nat →
    FatResult (List DirEntry)
  | [], _, _, _ => .err .unexpectedEof
  | .file d :: rest, lfn_buf, begin_off, off =>
    if d.is_end then .ok []
    else if d.is_free || hasVolumeId d.attrs then
      collectEntries rest lfn_buf.clear (off + 32) (off + 32)
    else
      FatResult.map
        (fun es =>
          { data := d, lfn := (lfn_buf.validate_chksum d.name).to_vec,
            entry_pos := off, offset_range := (begin_off, off + 32) } :: es)
        (collectEntries rest LongNameBuilder.new (off + 32) (off + 32))
  | .lfn d :: rest, lfn_buf, begin_off, off =>
    if d.is_free then collectEntries rest lfn_buf.clear (off + 32) (off + 32)
    else collectEntries rest (lfn_buf.process d) begin_off (off + 32)

/-- `u8::to_ascii_lowercase`, the fold underlying
`eq_ignore_ascii_case`. -/
def toAsciiLower (c : Nat) : Nat := if 65 ≤ c ∧ c ≤ 90 then c + 32 else c

/-- `str::eq_ignore_ascii_case` on code-unit lists. -/
def eq_ignore_ascii_case (a b : List Nat) : Bool :=
  a.map toAsciiLower == b.map toAsciiLower

/-- `Dir::find_entry` over the logical entries of the directory: first
entry whose `file_name()` matches case-insensitively, else `NotFound`. -/
def find_entry (entries : List DirEntry) (name : List Nat) :
    FatResult DirEntry :=
  match entries.find? (fun e => eq_ignore_ascii_case e.file_name name) with
  | some e => .ok e
  | none => .err .notFound

/-- Modelled from the spec: `uppercase(n)` per code point
(`str::to_uppercase`), restricted to ASCII and the Latin-1 letters
U+00E0–U+00FE (all of which uppercase by subtracting 0x20, except the
division sign U+00F7). -/
def char_to_uppercase (c : Nat) : Nat :=
  if 97 ≤ c ∧ c ≤ 122 then c - 32
  else if 224 ≤ c ∧ c ≤ 254 ∧ c ≠ 247 then c - 32
  else c

/-- Modelled from the spec: `lowercase(n)` per code point
(`str::to_lowercase`), restricted to ASCII and the Latin-1 letters
U+00C0–U+00DE (all of which lowercase by adding 0x20, except the
multiplication sign U+00D7). -/
def char_to_lowercase (c : Nat) : Nat :=
  if 65 ≤ c ∧ c ≤ 90 then c + 32
  else if 192 ≤ c ∧ c ≤ 222 ∧ c ≠ 215 then c + 32
  else c

/-- `Dir::is_empty` over the directory's logical entries: no entry other
than the literal names `.` and `..`. -/
def is_empty_entries (entries : List DirEntry) : Bool :=
  entries.all (fun e => e.file_name == [46] || e.file_name == [46, 46])

/-- The effect of a successful `Dir::remove` on the final path component:
the cluster chain handed to the cluster layer for freeing (if any) and the
directory's raw slots after the rewrite loop. -/
structure RemoveEffect where
  freed_cluster : Option Nat
  slots : List (List Nat)
deriving DecidableEq, Repr

/-- The final-component branch of `Dir::remove`: `e` is the located entry,
`children` the logical entries of `e`'s own directory when `e` is one, and
`slots` the raw directory slots.  A non-empty directory is rejected with
kind `NotFound` ("removing non-empty directory is denied") before any
cluster is freed or slot rewritten; otherwise the chain is freed and the
entry's slot range `[a, b)` marked free. -/
def remove_final (e : DirEntry) (children : List DirEntry)
    (slots : List (List Nat)) : FatResult RemoveEffect :=
  if e.data.is_dir && !is_empty_entries children then .err .notFound
  else
    .ok { freed_cluster := e.data.first_cluster,
          slots := remove_slots slots (e.offset_range.1 / 32)
            ((e.offset_range.2 - e.offset_range.1) / 32) }

/-- One 13-unit LFN part of `Dir::create_file_entry`: initialized to
`0xFFFF`, the name slice copied in, then a single `0x0000` terminator when
the part is short.  For the ASCII names modelled here `lfn_utf8` equals
the byte list itself. -/
def lfnPart (name : List Nat) (lfn_pos : Nat) : List Nat :=
  (name.drop lfn_pos).take (min (name.length - lfn_pos) 13) ++
    (if min (name.length - lfn_pos) 13 < 13 then
      0 :: List.replicate (13 - min (name.length - lfn_pos) 13 - 1) 65535
    else [])

/-- The LFN fragments written by `Dir::create_file_entry`, in on-disk
order: fragment `num_lfn` (carrying the LAST flag `0x40`) first, down to
fragment 1, each with the checksum of the generated short name. -/
def lfn_entries_for (name : List Nat) : List DirLfnEntryData :=
  (List.range ((name.length + 13 - 1) / 13)).map fun i =>
    { order := if i = 0 then 64 + ((name.length + 13 - 1) / 13 - i)
               else (name.length + 13 - 1) / 13 - i
      attrs := 15
      entry_type := 0
      checksum := lfn_checksum (gen_short_name name)
      name_0 := (lfnPart name (((name.length + 13 - 1) / 13 - i - 1) * 13)).take 5
      name_1 := ((lfnPart name (((name.length + 13 - 1) / 13 - i - 1) * 13)).drop 5).take 6
      reserved_0 := 0
      name_2 := (lfnPart name (((name.length + 13 - 1) / 13 - i - 1) * 13)).drop 11 }

/-- The short entry written by `Dir::create_file_entry`: the generated
short name, all other fields defaulted to zero. -/
def short_entry_for (name : List Nat) : DirFileEntryData :=
  { name := gen_short_name name }

/-- `Dir::create_file_entry` on an ASCII name: reject names longer than 255
code units with `InvalidInput`, find `num_lfn + 1` free slots, and return
the start byte offset together with the LFN fragments and short entry
written there (`unexpectedEof` models the stream erroring out during the
free-run search). -/
def create_file_entry (slots : List DirEntryData) (name : List Nat) :
    FatResult (Nat × List DirLfnEntryData × DirFileEntryData) :=
  if name.length > 255 then .err .invalidInput
  else
    match find_free_entries slots ((name.length + 13 - 1) / 13 + 1) with
    | none => .err .unexpectedEof
    | some start_pos =>
      .ok (start_pos, lfn_entries_for name, short_entry_for name)

/-- A live short entry's data (`"A"`, no attributes) for concrete tests. -/
def sampleShortData : DirFileEntryData :=
  { name := 65 :: List.replicate 10 32 }

/-- A builder state holding a pending LFN with a checksum that matches no
real short name in the tests (used to exercise the mismatch path). -/
def sampleBuilder : LongNameBuilder :=
  { buf := [70, 0], chksum := 1, index := 1 }

/-- A logical entry whose long name is `é` (U+00E9). -/
def entryEAcute : DirEntry :=
  { data := sampleShortData, lfn := [233], entry_pos := 0,
    offset_range := (0, 32) }

/-- A directory entry (`DIRECTORY` attribute set) occupying slot 0. -/
def entryDirNonEmpty : DirEntry :=
  { data := { name := 68 :: List.replicate 10 32, attrs := 16 }, lfn := [],
    entry_pos := 0, offset_range := (0, 32) }

/-- A child entry named `X`, making its parent non-empty. -/
def entryChildX : DirEntry :=
  { data := sampleShortData, lfn := [88], entry_pos := 64,
    offset_range := (64, 96) }

/-- A directory entry whose raw on-disk `size` field is the non-zero 7. -/
def entryDirWithSize : DirEntry :=
  { data := { name := 68 :: List.replicate 10 32, attrs := 16, size := 7 },
    lfn := [], entry_pos := 0, offset_range := (0, 32) }

/-- Shared round-trip core: decoding then re-encoding a 32-byte slot whose
attribute byte has the unknown bits `0x40`/`0x80` clear reproduces the
slot. -/
theorem roundtrip_core (b0 b1 b2 b3 b4 b5 b6 b7 b8 b9 b10 b11 b12 b13 b14 b15
    b16 b17 b18 b19 b20 b21 b22 b23 b24 b25 b26 b27 b28 b29 b30 b31 : Nat)
    (hb : ∀ b ∈ [b0, b1, b2, b3, b4, b5, b6, b7, b8, b9, b10, b11, b12, b13,
      b14, b15, b16, b17, b18, b19, b20, b21, b22, b23, b24, b25, b26, b27,
      b28, b29, b30, b31], b < 256)
    (h11 : b11 < 64) :
    Option.map serializeData (deserialize
      [b0, b1, b2, b3, b4, b5, b6, b7, b8, b9, b10, b11, b12, b13, b14, b15,
       b16, b17, b18, b19, b20, b21, b22, b23, b24, b25, b26, b27, b28, b29,
       b30, b31]) =
    some [b0, b1, b2, b3, b4, b5, b6, b7, b8, b9, b10, b11, b12, b13, b14,
      b15, b16, b17, b18, b19, b20, b21, b22, b23, b24, b25, b26, b27, b28,
      b29, b30, b31] := by
  simp only [List.forall_mem_cons] at hb
  obtain ⟨p0, p1, p2, p3, p4, p5, p6, p7, p8, p9, p10, p11, p12, p13, p14,
    p15, p16, p17, p18, p19, p20, p21, p22, p23, p24, p25, p26, p27, p28,
    p29, p30, p31, -⟩ := hb
  by_cases h : b11 % 16 = 15
  · simp only [deserialize, Nat.mod_eq_of_lt h11, h, if_pos, Option.map_some',
      serializeData, serializeLfn, le16, List.map, List.flatten,
      List.append_nil, List.cons_append, List.nil_append]
    simp only [Option.some.injEq, List.cons.injEq, and_true, true_and]
    omega
  · simp only [deserialize, Nat.mod_eq_of_lt h11, h, if_neg, if_false,
      Option.map_some', serializeData, serializeFile, le16, le32,
      List.cons_append, List.nil_append, List.append_nil]
    simp only [Option.some.injEq, List.cons.injEq, and_true, true_and]
    omega

/-- C1.  Corrected round trip: for every 32-byte slot whose attribute byte
(offset 11) has the unknown bits `0x40` and `0x80` clear (with all bytes
below 256, such a byte is below 64), serializing the value obtained by
deserializing the slot reproduces it exactly.  The original claim is false:
`from_bits_truncate` drops the unknown attribute bits, see
`c1_roundtrip_cex`. -/
theorem c1_roundtrip (b0 b1 b2 b3 b4 b5 b6 b7 b8 b9 b10 b11 b12 b13 b14 b15
    b16 b17 b18 b19 b20 b21 b22 b23 b24 b25 b26 b27 b28 b29 b30 b31 : Nat)
    (hb : ∀ b ∈ [b0, b1, b2, b3, b4, b5, b6, b7, b8, b9, b10, b11, b12, b13,
      b14, b15, b16, b17, b18, b19, b20, b21, b22, b23, b24, b25, b26, b27,
      b28, b29, b30, b31], b < 256)
    (h11 : b11 < 64) :
    Option.map serializeData (deserialize
      [b0, b1, b2, b3, b4, b5, b6, b7, b8, b9, b10, b11, b12, b13, b14, b15,
       b16, b17, b18, b19, b20, b21, b22, b23, b24, b25, b26, b27, b28, b29,
       b30, b31]) =
    some [b0, b1, b2, b3, b4, b5, b6, b7, b8, b9, b10, b11, b12, b13, b14,
      b15, b16, b17, b18, b19, b20, b21, b22, b23, b24, b25, b26, b27, b28,
      b29, b30, b31] :=
  roundtrip_core b0 b1 b2 b3 b4 b5 b6 b7 b8 b9 b10 b11 b12 b13 b14 b15 b16
    b17 b18 b19 b20 b21 b22 b23 b24 b25 b26 b27 b28 b29 b30 b31 hb h11

/-- C1 witness: the round trip at a concrete slot (attribute byte `0x15`,
inside the defined range). -/
theorem c1_roundtrip_witness :
    Option.map serializeData (deserialize
      [65, 66, 67, 32, 32, 32, 32, 32, 84, 88, 84, 21, 0, 1, 2, 3, 4, 5, 6,
       7, 8, 9, 10, 11, 12, 13, 14, 15, 255, 254, 253, 252]) =
    some [65, 66, 67, 32, 32, 32, 32, 32, 84, 88, 84, 21, 0, 1, 2, 3, 4, 5,
      6, 7, 8, 9, 10, 11, 12, 13, 14, 15, 255, 254, 253, 252] :=
  c1_roundtrip 65 66 67 32 32 32 32 32 84 88 84 21 0 1 2 3 4 5 6 7 8 9 10 11
    12 13 14 15 255 254 253 252 (by decide) (by decide)

/-- C1 counterexample: a slot with the unknown attribute bit `0x40` set at
offset 11 does not survive the decode/encode round trip — the codec clears
that bit instead of preserving it. -/
theorem c1_roundtrip_cex :
    Option.map serializeData (deserialize slotWithUnknownAttrBit) ≠
      some slotWithUnknownAttrBit := by
  decide

/-- C2.  The short-name synthesizer's extension copy starts at the last dot
itself (`name_upper[index..index+short_ext_len]`), so for `"A.TXT"` the
extension field receives `".TX"` — the dot is included and the final `T`
dropped — while the spec-faithful synthesizer produces `"TXT"`.  This
contradicts the source's own comment ("copy first 3 characters of
extension") and its `short_ext_len` computation, which counts characters
after the dot. -/
theorem c2_short_name_dot_bug :
    gen_short_name [65, 46, 84, 88, 84] =
      [65, 32, 32, 32, 32, 32, 32, 32, 46, 84, 88] ∧
    gen_short_name_spec [65, 46, 84, 88, 84] =
      [65, 32, 32, 32, 32, 32, 32, 32, 84, 88, 84] := by
  decide

/-- A slot signalling end-of-directory is not a free slot (its first byte is
zero, not `0xE5`). -/
theorem is_end_not_free (d : DirEntryData) (h : d.is_end = true) :
    d.is_free = false := by
  cases d with
  | file d =>
    simp only [DirEntryData.is_end, DirFileEntryData.is_end, beq_iff_eq] at h
    simp only [DirEntryData.is_free, DirFileEntryData.is_free,
      beq_eq_false_iff_ne, ne_eq, h]
    decide
  | lfn d =>
    simp only [DirEntryData.is_end, DirLfnEntryData.is_end, beq_iff_eq] at h
    simp only [DirEntryData.is_free, DirLfnEntryData.is_free,
      beq_eq_false_iff_ne, ne_eq, h]
    decide

/-- Invariant of the free-run search loop: if the scan reaches a terminator
before ever accumulating `k` consecutive free slots, the returned offset is
`first_free * 32` where `first_free` is the start of the free run in
progress at the terminator (the terminator's own index when that run is
empty). -/
theorem findFreeGo_term (k : Nat) (pre : List DirEntryData) :
    ∀ (term : DirEntryData) (rest : List DirEntryData) (ff nf i : Nat),
      term.is_end = true →
      (∀ d ∈ pre, d.is_end = false) →
      noReach k nf pre = true →
      (nf = 0 ∨ (nf ≤ i ∧ ff = i - nf)) →
      findFreeGo k (pre ++ term :: rest) ff nf i =
        some ((i + pre.length - runAtEnd nf pre) * 32) := by
  induction pre with
  | nil =>
    intro term rest ff nf i hterm _ _ hside
    have hfree := is_end_not_free term hterm
    have hval : (if nf = 0 then i else ff) = i + 0 - nf := by
      by_cases h0 : nf = 0
      · simp [h0]
      · rcases hside with h | ⟨hle, hff⟩
        · exact absurd h h0
        · rw [if_neg h0, hff]
          omega
    simp only [List.nil_append, findFreeGo, hfree, hterm, if_true, if_false,
      Bool.false_eq_true, runAtEnd, List.length_nil]
    rw [hval]
  | cons d pre ih =>
    intro term rest ff nf i hterm hpre hnr hside
    have hdend : d.is_end = false := hpre d (by simp)
    have hpre' : ∀ x ∈ pre, x.is_end = false := fun x hx => hpre x (by simp [hx])
    cases hfree : d.is_free with
    | true =>
      simp only [noReach, hfree, if_true, Bool.and_eq_true, bne_iff_ne,
        ne_eq] at hnr
      obtain ⟨hk, hnr'⟩ := hnr
      simp only [List.cons_append, findFreeGo, hfree, if_true]
      rw [if_neg hk]
      have hside' : nf + 1 = 0 ∨
          (nf + 1 ≤ i + 1 ∧
            (if nf = 0 then i else ff) = (i + 1) - (nf + 1)) := by
        right
        by_cases h0 : nf = 0
        · simp [h0]
        · rcases hside with h | ⟨hle, hff⟩
          · exact absurd h h0
          · simp only [h0, if_false]
            omega
      rw [List.append_eq,
        ih term rest _ (nf + 1) (i + 1) hterm hpre' hnr' hside']
      simp only [runAtEnd, hfree, if_true, List.length_cons,
        Option.some.injEq]
      omega
    | false =>
      simp only [noReach, hfree, Bool.false_eq_true, if_false] at hnr
      simp only [List.cons_append, findFreeGo, hfree, Bool.false_eq_true,
        if_false, hdend]
      rw [List.append_eq, ih term rest ff 0 (i + 1) hterm hpre' hnr
        (Or.inl rfl)]
      simp only [runAtEnd, hfree, Bool.false_eq_true, if_false,
        List.length_cons, Option.some.injEq]
      omega

/-- C3.  Corrected terminator behaviour of the free-run search: when the
scan reaches a terminator before accumulating `k` consecutive free slots,
it returns `start_of_current_free_run * 32`, where the start of the run is
taken to be the terminator's own index when no free run is in progress —
i.e. the MINIMUM of run start and terminator index, not the maximum the
claim states (see `c3_terminator_cex`).  `pre.length` is the terminator's
index and `runAtEnd 0 pre` the length of the free run immediately
preceding it. -/
theorem c3_terminator (pre : List DirEntryData) (term : DirEntryData)
    (rest : List DirEntryData) (k : Nat)
    (hterm : term.is_end = true)
    (hpre : ∀ d ∈ pre, d.is_end = false)
    (hnr : noReach k 0 pre = true) :
    find_free_entries (pre ++ term :: rest) k =
      some ((pre.length - runAtEnd 0 pre) * 32) := by
  have h := findFreeGo_term k pre term rest 0 0 0 hterm hpre hnr (Or.inl rfl)
  simpa [find_free_entries] using h

/-- C3 witness: in a directory `[live, free, terminator]`, searching for a
run of 3 returns byte offset 32 (the free run's start), obtained through
`c3_terminator`. -/
theorem c3_terminator_witness :
    find_free_entries [slotLive, slotFree, slotEnd] 3 = some 32 := by
  have h := c3_terminator [slotLive, slotFree] slotEnd [] 3 (by decide)
    (by decide) (by decide)
  exact h

/-- C3 counterexample: in `[live, free, terminator]` with `k = 3` the
current free run starts at index 1 and the terminator is at index 2; the
code returns offset `1 * 32 = 32`, not the claimed
`max(1, 2) * 32 = 64`. -/
theorem c3_terminator_cex :
    find_free_entries [slotLive, slotFree, slotEnd] 3 = some 32 ∧
      some (32 : Nat) ≠ some (max 1 2 * 32) := by
  decide

/-- Marking core: on a 32-byte slot whose bytes are below 256 and whose
attribute byte has the unknown bits clear, the decode / set-free-byte /
re-encode step of `Dir::remove` rewrites byte 0 to `0xE5` and leaves every
other byte unchanged. -/
theorem mark_core (b0 b1 b2 b3 b4 b5 b6 b7 b8 b9 b10 b11 b12 b13 b14 b15
    b16 b17 b18 b19 b20 b21 b22 b23 b24 b25 b26 b27 b28 b29 b30 b31 : Nat)
    (hb : ∀ b ∈ [b0, b1, b2, b3, b4, b5, b6, b7, b8, b9, b10, b11, b12, b13,
      b14, b15, b16, b17, b18, b19, b20, b21, b22, b23, b24, b25, b26, b27,
      b28, b29, b30, b31], b < 256)
    (h11 : b11 < 64) :
    remove_mark
      [b0, b1, b2, b3, b4, b5, b6, b7, b8, b9, b10, b11, b12, b13, b14, b15,
       b16, b17, b18, b19, b20, b21, b22, b23, b24, b25, b26, b27, b28, b29,
       b30, b31] =
    229 :: [b1, b2, b3, b4, b5, b6, b7, b8, b9, b10, b11, b12, b13, b14,
      b15, b16, b17, b18, b19, b20, b21, b22, b23, b24, b25, b26, b27, b28,
      b29, b30, b31] := by
  simp only [List.forall_mem_cons] at hb
  obtain ⟨p0, p1, p2, p3, p4, p5, p6, p7, p8, p9, p10, p11, p12, p13, p14,
    p15, p16, p17, p18, p19, p20, p21, p22, p23, p24, p25, p26, p27, p28,
    p29, p30, p31, -⟩ := hb
  by_cases h : b11 % 16 = 15
  · simp only [remove_mark, deserialize, Nat.mod_eq_of_lt h11, h, if_pos,
      set_free, serializeData, serializeLfn, le16, List.map, List.flatten,
      List.append_nil, List.cons_append, List.nil_append]
    simp only [List.cons.injEq, and_true, true_and]
    omega
  · simp only [remove_mark, deserialize, Nat.mod_eq_of_lt h11, h, if_neg,
      if_false, set_free, List.set, serializeData, serializeFile, le16, le32,
      List.cons_append, List.nil_append, List.append_nil]
    simp only [List.cons.injEq, and_true, true_and]
    omega

/-- Index-wise description of `remove_slots_go`. -/
theorem remove_slots_go_getD (slots : List (List Nat)) :
    ∀ j first num i, i < slots.length →
      (remove_slots_go slots j first num).getD i [] =
        (if first ≤ j + i ∧ j + i < first + num then
          remove_mark (slots.getD i []) else slots.getD i []) := by
  induction slots with
  | nil =>
    intro j first num i hi
    simp at hi
  | cons s rest ih =>
    intro j first num i hi
    cases i with
    | zero =>
      simp [remove_slots_go, List.getD_cons_zero]
    | succ m =>
      simp only [remove_slots_go, List.getD_cons_succ]
      rw [ih (j + 1) first num m (by simpa using hi)]
      have hjj : j + 1 + m = j + (m + 1) := by omega
      rw [hjj]

/-- Unconditional marking core: on ANY 32-byte slot — whatever its bytes,
unknown attribute bits included — the decode / set-free-byte / re-encode
step of `Dir::remove` puts the free marker `0xE5` at byte 0 (at `name[0]`
when the slot decodes as a short entry, at `order` when it decodes as an
LFN fragment; either way the first serialized byte). -/
theorem mark_head (b0 b1 b2 b3 b4 b5 b6 b7 b8 b9 b10 b11 b12 b13 b14 b15
    b16 b17 b18 b19 b20 b21 b22 b23 b24 b25 b26 b27 b28 b29 b30 b31 : Nat) :
    (remove_mark
      [b0, b1, b2, b3, b4, b5, b6, b7, b8, b9, b10, b11, b12, b13, b14, b15,
       b16, b17, b18, b19, b20, b21, b22, b23, b24, b25, b26, b27, b28, b29,
       b30, b31]).headD 0 = 229 := by
  by_cases h : b11 % 64 % 16 = 15
  · simp [remove_mark, deserialize, h, set_free, serializeData, serializeLfn]
  · simp [remove_mark, deserialize, h, set_free, serializeData,
      serializeFile, List.set]

/-- C4.  Corrected frame property of `Dir::remove`: for an entry occupying
the slot-index range `[first, first + num)`, every rewritten slot in the
range carries the free marker `0xE5` at byte 0 (`name[0]` for short slots,
the order field for LFN slots) — unconditionally — and slots outside the
range are not written — unconditionally.  Every byte of an in-range slot
other than byte 0 is preserved provided the slot's attribute byte has the
unknown bits `0x40`/`0x80` clear; the original claim's unconditional byte
preservation is false, because the rewrite re-encodes the attribute byte
through `from_bits_truncate`, clearing unknown bits (see
`c4_remove_range_cex`). -/
theorem c4_remove_range (slots : List (List Nat)) (first num i : Nat)
    (b0 b1 b2 b3 b4 b5 b6 b7 b8 b9 b10 b11 b12 b13 b14 b15 b16 b17 b18 b19
      b20 b21 b22 b23 b24 b25 b26 b27 b28 b29 b30 b31 : Nat)
    (hi : i < slots.length)
    (hs : slots.getD i [] =
      [b0, b1, b2, b3, b4, b5, b6, b7, b8, b9, b10, b11, b12, b13, b14, b15,
       b16, b17, b18, b19, b20, b21, b22, b23, b24, b25, b26, b27, b28, b29,
       b30, b31]) :
    ((first ≤ i ∧ i < first + num) →
      ((remove_slots slots first num).getD i []).headD 0 = 229 ∧
      ((∀ b ∈ [b0, b1, b2, b3, b4, b5, b6, b7, b8, b9, b10, b11, b12, b13,
          b14, b15, b16, b17, b18, b19, b20, b21, b22, b23, b24, b25, b26,
          b27, b28, b29, b30, b31], b < 256) → b11 < 64 →
        (remove_slots slots first num).getD i [] =
          229 :: [b1, b2, b3, b4, b5, b6, b7, b8, b9, b10, b11, b12, b13,
            b14, b15, b16, b17, b18, b19, b20, b21, b22, b23, b24, b25, b26,
            b27, b28, b29, b30, b31])) ∧
    (¬(first ≤ i ∧ i < first + num) →
      (remove_slots slots first num).getD i [] = slots.getD i []) := by
  have hg := remove_slots_go_getD slots 0 first num i hi
  simp only [Nat.zero_add] at hg
  constructor
  · intro hin
    constructor
    · rw [remove_slots, hg, if_pos hin, hs]
      exact mark_head b0 b1 b2 b3 b4 b5 b6 b7 b8 b9 b10 b11 b12 b13 b14 b15
        b16 b17 b18 b19 b20 b21 b22 b23 b24 b25 b26 b27 b28 b29 b30 b31
    · intro hb h11
      rw [remove_slots, hg, if_pos hin, hs]
      exact mark_core b0 b1 b2 b3 b4 b5 b6 b7 b8 b9 b10 b11 b12 b13 b14 b15
        b16 b17 b18 b19 b20 b21 b22 b23 b24 b25 b26 b27 b28 b29 b30 b31 hb
        h11
  · intro hout
    rw [remove_slots, hg, if_neg hout]

/-- C4 witness: removing a one-slot entry at index 0 in a one-slot
directory marks byte 0 free, and — the slot's attribute byte 0x15 having
the unknown bits clear — preserves the other 31 bytes. -/
theorem c4_remove_range_witness :
    (remove_slots [[65, 66, 67, 32, 32, 32, 32, 32, 84, 88, 84, 21, 0, 1, 2,
      3, 4, 5, 6, 7, 8, 9, 10, 11, 12, 13, 14, 15, 255, 254, 253, 252]]
      0 1).getD 0 [] =
    229 :: [66, 67, 32, 32, 32, 32, 32, 84, 88, 84, 21, 0, 1, 2, 3, 4, 5, 6,
      7, 8, 9, 10, 11, 12, 13, 14, 15, 255, 254, 253, 252] :=
  (((c4_remove_range [[65, 66, 67, 32, 32, 32, 32, 32, 84, 88, 84, 21, 0, 1,
      2, 3, 4, 5, 6, 7, 8, 9, 10, 11, 12, 13, 14, 15, 255, 254, 253, 252]]
    0 1 0 65 66 67 32 32 32 32 32 84 88 84 21 0 1 2 3 4 5 6 7 8 9 10 11 12
    13 14 15 255 254 253 252 (by decide) (by decide)).1
    (by decide)).2) (by decide) (by decide)

/-- C4 counterexample: a slot in the removed range whose attribute byte has
the unknown bit `0x40` set does NOT keep all its other bytes — the rewrite
clears that bit (byte 11 becomes 0), so the claim's unconditional
preservation fails. -/
theorem c4_remove_range_cex :
    (remove_slots [slotWithUnknownAttrBit] 0 1).getD 0 [] ≠
      229 :: slotWithUnknownAttrBit.tail := by
  decide

/-- C5.  When iteration reaches a live short entry (not a terminator, not
free, not a volume ID) whose short name's `lfn_checksum` differs from the
checksum accumulated by the LFN assembler, the iterator does not propagate
an error: the accumulated long name is cleared and the logical entry is
still emitted with an empty long name, on which `file_name()` falls back
to the short name. -/
theorem c5_checksum_mismatch_recovery (d : DirFileEntryData)
    (rest : List DirEntryData) (lfn_buf : LongNameBuilder)
    (begin_off off : Nat)
    (hend : d.is_end = false) (hfree : d.is_free = false)
    (hvol : hasVolumeId d.attrs = false)
    (hmis : lfn_checksum d.name ≠ lfn_buf.chksum) :
    collectEntries (.file d :: rest) lfn_buf begin_off off =
      FatResult.map
        (fun es =>
          { data := d, lfn := [], entry_pos := off,
            offset_range := (begin_off, off + 32) } :: es)
        (collectEntries rest LongNameBuilder.new (off + 32) (off + 32)) ∧
    DirEntry.file_name
      { data := d, lfn := [], entry_pos := off,
        offset_range := (begin_off, off + 32) } = short_file_name d.name := by
  have hv : (lfn_buf.validate_chksum d.name).to_vec = [] := by
    simp [LongNameBuilder.validate_chksum, hmis, LongNameBuilder.clear,
      LongNameBuilder.to_vec]
  constructor
  · simp [collectEntries, hend, hfree, hvol, hv]
  · simp [DirEntry.file_name]

/-- C5 witness: a live short entry after a pending LFN whose stored
checksum 1 differs from the short name's checksum 128; the entry is
emitted with an empty long name and iteration ends normally at the
following terminator. -/
theorem c5_checksum_mismatch_recovery_witness :
    collectEntries [.file sampleShortData, slotEnd] sampleBuilder 0 0 =
      .ok [{ data := sampleShortData, lfn := [], entry_pos := 0,
             offset_range := (0, 32) }] := by
  have h := c5_checksum_mismatch_recovery sampleShortData [slotEnd]
    sampleBuilder 0 0 (by decide) (by decide) (by decide) (by decide)
  rw [h.1]
  decide

/-- C6.  Corrected: removing a directory that contains a logical entry
other than `.` and `..` fails — but with error kind `NotFound` (message
"removing non-empty directory is denied"), not a distinct
`DirectoryNotEmpty` kind (see `c6_nonempty_dir_remove_cex`) — and, the
check preceding the mutation steps, neither frees the cluster chain nor
marks any slot free (the error result carries no effect). -/
theorem c6_nonempty_dir_remove (e : DirEntry) (children : List DirEntry)
    (slots : List (List Nat))
    (hdir : e.data.is_dir = true)
    (hc : ∃ c ∈ children, c.file_name ≠ [46] ∧ c.file_name ≠ [46, 46]) :
    remove_final e children slots = .err .notFound := by
  obtain ⟨c, hmem, h1, h2⟩ := hc
  have hemp : is_empty_entries children = false := by
    cases hall : is_empty_entries children
    · rfl
    · exfalso
      simp only [is_empty_entries, List.all_eq_true] at hall
      have := hall c hmem
      simp [h1, h2] at this
  simp [remove_final, hdir, hemp]

/-- C6 witness: removing a directory with a child named `X` fails with the
`NotFound` kind. -/
theorem c6_nonempty_dir_remove_witness :
    remove_final entryDirNonEmpty [entryChildX] [] = .err .notFound :=
  c6_nonempty_dir_remove entryDirNonEmpty [entryChildX] [] (by decide)
    ⟨entryChildX, by decide, by decide, by decide⟩

/-- C6 counterexample: the failure kind for removing a non-empty directory
is `NotFound`, not the claimed `DirectoryNotEmpty`. -/
theorem c6_nonempty_dir_remove_cex :
    remove_final entryDirNonEmpty [entryChildX] [] = .err .notFound ∧
      remove_final entryDirNonEmpty [entryChildX] [] ≠
        .err .directoryNotEmpty := by
  decide

/-- C7.  `create_file_entry` fails with `InvalidInput` exactly when the
final component's name is longer than 255 code units; a name of at most
255 code units is never rejected for length (any later failure has a
different kind). -/
theorem c7_create_length_check (slots : List DirEntryData)
    (name : List Nat) :
    create_file_entry slots name = .err .invalidInput ↔
      name.length > 255 := by
  unfold create_file_entry
  by_cases h : name.length > 255
  · simp [h]
  · rw [if_neg h]
    constructor
    · intro hx
      exfalso
      cases hf : find_free_entries slots ((name.length + 13 - 1) / 13 + 1) with
      | none =>
        rw [hf] at hx
        exact absurd (FatResult.err.inj hx) (by decide)
      | some p =>
        rw [hf] at hx
        exact FatResult.noConfusion hx
    · intro hx
      exact absurd hx h

/-- `List.find?` only depends on the values of the predicate. -/
theorem find_congr {p q : DirEntry → Bool} (l : List DirEntry)
    (h : ∀ e, p e = q e) : l.find? p = l.find? q := by
  induction l with
  | nil => rfl
  | cons a t ih =>
    simp only [List.find?]
    rw [h a]
    cases q a
    · exact ih
    · rfl

/-- ASCII folding absorbs the uppercase map on ASCII code points. -/
theorem lower_upper (c : Nat) (hc : c < 128) :
    toAsciiLower (char_to_uppercase c) = toAsciiLower c := by
  simp only [toAsciiLower, char_to_uppercase]
  split_ifs <;> omega

/-- ASCII folding absorbs the lowercase map on ASCII code points. -/
theorem lower_lower (c : Nat) (hc : c < 128) :
    toAsciiLower (char_to_lowercase c) = toAsciiLower c := by
  simp only [toAsciiLower, char_to_lowercase]
  split_ifs <;> omega

/-- Mapped version of `lower_upper`. -/
theorem map_lower_upper (n : List Nat) (h : ∀ c ∈ n, c < 128) :
    (n.map char_to_uppercase).map toAsciiLower = n.map toAsciiLower := by
  rw [List.map_map]
  exact List.map_congr_left fun c hc => lower_upper c (h c hc)

/-- Mapped version of `lower_lower`. -/
theorem map_lower_lower (n : List Nat) (h : ∀ c ∈ n, c < 128) :
    (n.map char_to_lowercase).map toAsciiLower = n.map toAsciiLower := by
  rw [List.map_map]
  exact List.map_congr_left fun c hc => lower_lower c (h c hc)

/-- C8.  Corrected case-insensitive lookup: for sibling names consisting of
ASCII characters, `find_entry` agrees on the name, its uppercase form and
its lowercase form (comparison is `eq_ignore_ascii_case` against each
entry's `file_name()`, first match wins, `NotFound` otherwise).  The
original claim's "including names with non-ASCII letters" is false:
ASCII-only folding does not identify Latin letters outside ASCII (see
`c8_case_insensitive_find_cex`). -/
theorem c8_case_insensitive_find (entries : List DirEntry) (n : List Nat)
    (h : ∀ c ∈ n, c < 128) :
    find_entry entries (n.map char_to_uppercase) = find_entry entries n ∧
    find_entry entries (n.map char_to_lowercase) = find_entry entries n := by
  have hcu : ∀ e : DirEntry,
      eq_ignore_ascii_case e.file_name (n.map char_to_uppercase) =
        eq_ignore_ascii_case e.file_name n := by
    intro e
    unfold eq_ignore_ascii_case
    rw [map_lower_upper n h]
  have hcl : ∀ e : DirEntry,
      eq_ignore_ascii_case e.file_name (n.map char_to_lowercase) =
        eq_ignore_ascii_case e.file_name n := by
    intro e
    unfold eq_ignore_ascii_case
    rw [map_lower_lower n h]
  constructor
  · unfold find_entry
    rw [find_congr entries hcu]
  · unfold find_entry
    rw [find_congr entries hcl]

/-- C8 witness: lookup of the ASCII name `a` agrees with its uppercase and
lowercase forms in a directory containing the entry `é`. -/
theorem c8_case_insensitive_find_witness :
    find_entry [entryEAcute] ([97].map char_to_uppercase) =
      find_entry [entryEAcute] [97] ∧
    find_entry [entryEAcute] ([97].map char_to_lowercase) =
      find_entry [entryEAcute] [97] :=
  c8_case_insensitive_find [entryEAcute] [97] (by decide)

/-- C8 counterexample: with an entry named `é` (U+00E9), `find_entry "é"`
succeeds but `find_entry (uppercase "é") = find_entry "É"` fails with
`NotFound` — the non-ASCII part of the claim is false. -/
theorem c8_case_insensitive_find_cex :
    find_entry [entryEAcute] [233] = .ok entryEAcute ∧
    find_entry [entryEAcute] ([233].map char_to_uppercase) =
      .err .notFound := by
  decide

/-- C9.  Every LFN fragment written by `create_file_entry` stores the same
1-byte checksum, equal to `lfn_checksum` of the generated 11-byte short
name (the fold starting at 0 with
`c = ((c & 1) ? 0x80 : 0) + (c >> 1) + b` modulo 256). -/
theorem c9_lfn_checksum_law (slots : List DirEntryData) (name : List Nat)
    (start_pos : Nat) (lfns : List DirLfnEntryData) (fe : DirFileEntryData)
    (h : create_file_entry slots name = .ok (start_pos, lfns, fe)) :
    fe.name = gen_short_name name ∧
      ∀ l ∈ lfns, l.checksum = lfn_checksum fe.name := by
  unfold create_file_entry at h
  by_cases hl : name.length > 255
  · rw [if_pos hl] at h
    exact FatResult.noConfusion h
  · rw [if_neg hl] at h
    cases hf : find_free_entries slots ((name.length + 13 - 1) / 13 + 1) with
    | none =>
      rw [hf] at h
      exact FatResult.noConfusion h
    | some p =>
      rw [hf] at h
      have h' := FatResult.ok.inj h
      injection h' with h1 h23
      injection h23 with h2 h3
      subst h2
      subst h3
      refine ⟨rfl, ?_⟩
      intro l hmem
      simp only [lfn_entries_for, List.mem_map] at hmem
      obtain ⟨i, hi, rfl⟩ := hmem
      rfl

/-- C9 witness: creating `AB` in a directory holding only a terminator
writes one LFN fragment whose checksum is `lfn_checksum` of the generated
short name. -/
theorem c9_lfn_checksum_law_witness :
    (short_entry_for [65, 66]).name = gen_short_name [65, 66] ∧
      ∀ l ∈ lfn_entries_for [65, 66],
        l.checksum = lfn_checksum (short_entry_for [65, 66]).name :=
  c9_lfn_checksum_law [slotEnd] [65, 66] 0 (lfn_entries_for [65, 66])
    (short_entry_for [65, 66]) (by decide)

/-- C10.  `DirEntry::len` returns the raw 32-bit `size` field stored in the
slot, for directories as well, even though the internal `size` accessor
returns `None` for directories. -/
theorem c10_len_raw_size (e : DirEntry) :
    e.len = e.data.size ∧
      (e.data.is_dir = true → e.data.size_opt = none) := by
  refine ⟨rfl, ?_⟩
  intro h
  simp [DirFileEntryData.size_opt, DirFileEntryData.is_file, h]

/-- C10 witness: a directory entry whose on-disk size field is 7 reports
`len() = 7` while the internal accessor yields `None`. -/
theorem c10_len_raw_size_witness :
    entryDirWithSize.len = 7 ∧ entryDirWithSize.data.size_opt = none := by
  have h := c10_len_raw_size entryDirWithSize
  exact ⟨h.1, h.2 (by decide)⟩

/-- C7 witness: a 256-character name is rejected with `InvalidInput`. -/
theorem c7_create_length_check_witness :
    create_file_entry [] (List.replicate 256 65) = .err .invalidInput :=
  (c7_create_length_check [] (List.replicate 256 65)).mpr
    (by simp [List.length_replicate])
